import Mathlib

/-!
Verification of the flight-snapshot ingestion pipeline in `src/main.py`:
snapshot fetching (`fetch_snapshot`), defensive schema detection and
positional extraction (`parse_snapshot`, `parse_flight_record`), polygon
geocoding, and the hourly aggregation loop (`collect_flight_history`).

The Python values flowing through the pipeline are JSON-like values
(`resp.json()` results), modelled by `JsonVal`; numbers are modelled by `ℚ`.
Python exceptions are modelled by `Except String`: a `.error` value is a
raised exception propagating out of the modelled function.
-/

/-- A JSON-like Python value as returned by `resp.json()`: `None`, a bool,
a number, a string, a list, or a string-keyed dict (association list in
insertion order, matching Python 3.7+ dict iteration order). -/
inductive JsonVal : Type
  | null
  | bool (b : Bool)
  | num (q : ℚ)
  | str (s : String)
  | list (items : List JsonVal)
  | dict (entries : List (String × JsonVal))

/-- A shapely `Point(x, y)`: `x` is the FIRST constructor argument.  The code
builds `Point(lon, lat)`, so `x` holds the longitude. -/
structure Point where
  x : ℚ
  y : ℚ

/-- One row of a boundary GeoDataFrame (`countries` / `states`): a containment
test and the human-readable name attribute (`NAME` / `name` column). -/
structure Polygon where
  contains : Point → Bool
  name : String

/-- The record dict built at the end of `parse_flight_record`. `lat`, `lon`,
`alt` hold the raw positional values; `country` and `state` hold the geocoded
region names (`None` when no polygon contains the point). -/
structure FlightRecord where
  lat : JsonVal
  lon : JsonVal
  alt : JsonVal
  country : Option String
  state : Option String

/-- Python positional indexing `obj[i]` on a JSON value: succeeds on a long
enough list (or string, yielding a 1-character string); raises `IndexError`
past the end, `KeyError` on a string-keyed dict indexed by an int, and
`TypeError` on unsubscriptable values. -/
def pyIndex : JsonVal → Nat → Except String JsonVal
  | .list items, i =>
    match items.get? i with
    | some v => .ok v
    | none => .error "IndexError"
  | .str s, i =>
    match s.data.get? i with
    | some c => .ok (.str (String.mk [c]))
    | none => .error "IndexError"
  | .dict _, _ => .error "KeyError"
  | _, _ => .error "TypeError"

/-- Numeric coercion performed by shapely on a coordinate argument: numbers
are used as-is, Python bools are numeric (`float(True) = 1.0`), everything
else (None, strings, lists, dicts) is rejected. -/
def jsonToFloat : JsonVal → Option ℚ
  | .num q => some q
  | .bool b => some (if b then 1 else 0)
  | _ => none

/-- `Point(x, y)` construction: raises `TypeError` when either coordinate is
not numeric (in particular when it is `None`). -/
def mkPoint (x y : JsonVal) : Except String Point :=
  match jsonToFloat x, jsonToFloat y with
  | some a, some b => .ok ⟨a, b⟩
  | _, _ => .error "TypeError"

/-- `frame[frame.contains(point)]["NAME"].values[0] if not empty else None`:
the name of the first row (in the frame's row order) whose polygon contains
the point, else `None`. -/
def firstContainingName (gs : List Polygon) (p : Point) : Option String :=
  ((gs.filter fun g => g.contains p).head?).map Polygon.name

/-- Python `x is None`. -/
def isNull : JsonVal → Bool
  | .null => true
  | _ => false

/-- `parse_flight_record(obj)` (src/main.py:68-95): positional extraction of
`obj[0]`, `obj[1]`, `obj[2]`, `Point(lon, lat)` construction, geocoding
against both boundary frames, then the (late) `lat is None or lon is None`
check, returning `None` to skip or the five-field record dict.
`.error` models an exception escaping the function. -/
def parse_flight_record (countries states : List Polygon) (obj : JsonVal) :
    Except String (Option FlightRecord) :=
  match pyIndex obj 0 with
  | .error e => .error e
  | .ok lat =>
    match pyIndex obj 1 with
    | .error e => .error e
    | .ok lon =>
      match pyIndex obj 2 with
      | .error e => .error e
      | .ok alt =>
        match mkPoint lon lat with
        | .error e => .error e
        | .ok point =>
          let country := firstContainingName countries point
          let state := firstContainingName states point
          if isNull lat || isNull lon then .ok none
          else .ok (some ⟨lat, lon, alt, country, state⟩)

/-- The `for item in ...` loop body shared by both branches of
`parse_snapshot`: parse each candidate, append truthy results, propagate any
exception raised by `parse_flight_record`. -/
def parseListItems (countries states : List Polygon) :
    List JsonVal → Except String (List FlightRecord)
  | [] => .ok []
  | item :: rest =>
    match parse_flight_record countries states item with
    | .error e => .error e
    | .ok parsed =>
      match parseListItems countries states rest with
      | .error e => .error e
      | .ok more =>
        match parsed with
        | some p => .ok (p :: more)
        | none => .ok more

/-- The `for key, value in raw.items()` loop of `parse_snapshot`: list-valued
entries contribute their parsed items in order, all other values are skipped. -/
def parseDictEntries (countries states : List Polygon) :
    List (String × JsonVal) → Except String (List FlightRecord)
  | [] => .ok []
  | (_, .list items) :: rest =>
    match parseListItems countries states items with
    | .error e => .error e
    | .ok here =>
      match parseDictEntries countries states rest with
      | .error e => .error e
      | .ok more => .ok (here ++ more)
  | _ :: rest => parseDictEntries countries states rest

/-- `parse_snapshot(raw)` (src/main.py:34-65): `None` gives `[]`, a list is
scanned element-wise, a dict is scanned over its list-valued entries, any
other shape is logged and gives `[]`. -/
def parse_snapshot (countries states : List Polygon) (raw : JsonVal) :
    Except String (List FlightRecord) :=
  match raw with
  | .null => .ok []
  | .list items => parseListItems countries states items
  | .dict entries => parseDictEntries countries states entries
  | _ => .ok []

/-- `fetch_snapshot(hour_offset)` (src/main.py:22-31): one network attempt
whose outcome is given by the oracle `outcome` (`some v` = decoded JSON body,
`none` = any transport/status/decode exception).  Every exception is caught
and converted to `None` (`JsonVal.null`), so the function itself never
raises. -/
def fetch_snapshot (outcome : Nat → Option JsonVal) (hour_offset : Nat) : JsonVal :=
  match outcome hour_offset with
  | some v => v
  | none => .null

/-- The `for h in range(hours)` loop of `collect_flight_history`, over an
explicit list of offsets.  Returns the offsets actually passed to
`fetch_snapshot` (in call order), the progress diagnostics emitted (offset,
`len(entries)` — printed only after `parse_snapshot` returns), and the
accumulated records or the first uncaught exception. -/
def collectLoop (countries states : List Polygon) (outcome : Nat → Option JsonVal) :
    List Nat → List Nat × List (Nat × Nat) × Except String (List FlightRecord)
  | [] => ([], [], .ok [])
  | h :: rest =>
    match parse_snapshot countries states (fetch_snapshot outcome h) with
    | .error e => ([h], [], .error e)
    | .ok entries =>
      let (fetches, diags, res) := collectLoop countries states outcome rest
      (h :: fetches, (h, entries.length) :: diags,
        match res with
        | .error e => .error e
        | .ok more => .ok (entries ++ more))

/-- `collect_flight_history(hours)` (src/main.py:98-108): iterates offsets
`range(hours)` (empty for `hours ≤ 0`, matching Python `range` on a negative
argument). -/
def collect_flight_history (countries states : List Polygon)
    (outcome : Nat → Option JsonVal) (hours : Int) :
    List Nat × List (Nat × Nat) × Except String (List FlightRecord) :=
  collectLoop countries states outcome (List.range hours.toNat)

/-- The element list of a JSON value when it is a list, `[]` otherwise
(used to state which dict entries `parse_snapshot` reads). -/
def listItems : JsonVal → List JsonVal
  | .list items => items
  | _ => []

/-- A record candidate on which positional extraction succeeds and which is
kept: at least three positional slots with numeric latitude and longitude. -/
def isValidTriple : JsonVal → Bool
  | .list (a :: b :: _ :: _) => (jsonToFloat a).isSome && (jsonToFloat b).isSome
  | _ => false

/-- The record `parse_flight_record` builds from a valid positional triple
(junk on invalid input; only used under `isValidTriple`). -/
def tripleRecord (countries states : List Polygon) : JsonVal → FlightRecord
  | .list (a :: b :: c :: _) =>
    match jsonToFloat b, jsonToFloat a with
    | some px, some py =>
      ⟨a, b, c, firstContainingName countries ⟨px, py⟩,
        firstContainingName states ⟨px, py⟩⟩
    | _, _ => ⟨.null, .null, .null, none, none⟩
  | _ => ⟨.null, .null, .null, none, none⟩

/-- A record that has been geocoded at its own coordinates: its `country` and
`state` fields are exactly the first-containing-polygon lookups at the point
built from its `lon`/`lat` fields. -/
def GeocodedRecord (countries states : List Polygon) (r : FlightRecord) : Prop :=
  ∃ p : Point, jsonToFloat r.lon = some p.x ∧ jsonToFloat r.lat = some p.y ∧
    r.country = firstContainingName countries p ∧
    r.state = firstContainingName states p

lemma firstContainingName_eq_find? (gs : List Polygon) (p : Point) :
    firstContainingName gs p = (gs.find? fun g => g.contains p).map Polygon.name := by
  induction gs with
  | nil => rfl
  | cons g gs ih =>
    unfold firstContainingName at ih ⊢
    cases hc : g.contains p with
    | true => simp [List.filter_cons, List.find?_cons, hc]
    | false =>
      rw [List.filter_cons, List.find?_cons, hc]
      simp only [Bool.false_eq_true, if_false]
      exact ih


lemma parseListItems_append (countries states : List Polygon) (xs ys : List JsonVal) :
    parseListItems countries states (xs ++ ys) =
      Except.bind (parseListItems countries states xs) (fun a =>
        Except.map (fun b => a ++ b) (parseListItems countries states ys)) := by
  induction xs with
  | nil =>
    cases h : parseListItems countries states ys <;>
      simp [parseListItems, Except.bind, Except.map, h]
  | cons x xs ih =>
    simp only [List.cons_append, parseListItems, List.append_eq]
    rw [ih]
    cases hp : parse_flight_record countries states x with
    | error e => simp [Except.bind]
    | ok parsed =>
      cases ha : parseListItems countries states xs with
      | error e => cases parsed <;> simp [Except.bind, Except.map]
      | ok a =>
        cases hb : parseListItems countries states ys with
        | error e => cases parsed <;> simp [Except.bind, Except.map]
        | ok b => cases parsed <;> simp [Except.bind, Except.map]

lemma parseDictEntries_eq (countries states : List Polygon)
    (entries : List (String × JsonVal)) :
    parseDictEntries countries states entries =
      parseListItems countries states (entries.flatMap fun kv => listItems kv.2) := by
  induction entries with
  | nil => rfl
  | cons kv rest ih =>
    obtain ⟨k, v⟩ := kv
    cases v with
    | list items =>
      simp only [parseDictEntries]
      rw [show (((k, JsonVal.list items) :: rest).flatMap fun kv => listItems kv.2) =
          items ++ rest.flatMap (fun kv => listItems kv.2) from rfl]
      rw [parseListItems_append, ih]
      cases h1 : parseListItems countries states items with
      | error e => simp [Except.bind]
      | ok a =>
        cases h2 : parseListItems countries states
            (rest.flatMap fun kv => listItems kv.2) with
        | error e => simp [Except.bind, Except.map]
        | ok b => simp [Except.bind, Except.map]
    | null =>
      show parseDictEntries countries states rest = _
      simpa [listItems] using ih
    | bool b =>
      show parseDictEntries countries states rest = _
      simpa [listItems] using ih
    | num q =>
      show parseDictEntries countries states rest = _
      simpa [listItems] using ih
    | str s =>
      show parseDictEntries countries states rest = _
      simpa [listItems] using ih
    | dict d =>
      show parseDictEntries countries states rest = _
      simpa [listItems] using ih

lemma mkPoint_ok (x y : JsonVal) (p : Point) (h : mkPoint x y = Except.ok p) :
    jsonToFloat x = some p.x ∧ jsonToFloat y = some p.y := by
  unfold mkPoint at h
  cases hx : jsonToFloat x <;> rw [hx] at h
  · simp at h
  · cases hy : jsonToFloat y <;> rw [hy] at h
    · simp at h
    · simp only [Except.ok.injEq] at h
      subst h
      exact ⟨rfl, rfl⟩

lemma parse_flight_record_ok_geocoded (countries states : List Polygon)
    (obj : JsonVal) (r : FlightRecord)
    (h : parse_flight_record countries states obj = Except.ok (some r)) :
    GeocodedRecord countries states r := by
  unfold parse_flight_record at h
  split at h
  · exact absurd h (by simp)
  split at h
  · exact absurd h (by simp)
  split at h
  · exact absurd h (by simp)
  split at h
  · exact absurd h (by simp)
  split at h
  · exact absurd h (by simp)
  rename_i s1 lat heq1 s2 lon heq2 s3 alt heq3 s4 point heqp hn
  simp only [Except.ok.injEq, Option.some.injEq] at h
  obtain ⟨hx, hy⟩ := mkPoint_ok lon lat point heqp
  exact ⟨point, by simp [← h, hx, hy]⟩

lemma parseListItems_ok_geocoded (countries states : List Polygon)
    (items : List JsonVal) (l : List FlightRecord)
    (h : parseListItems countries states items = Except.ok l) :
    ∀ r ∈ l, GeocodedRecord countries states r := by
  induction items generalizing l with
  | nil =>
    unfold parseListItems at h
    simp only [Except.ok.injEq] at h
    subst h
    simp
  | cons x xs ih =>
    unfold parseListItems at h
    split at h
    · exact absurd h (by simp)
    split at h
    · exact absurd h (by simp)
    rename_i s1 parsed heqx s2 more heqxs
    split at h
    · rename_i p
      simp only [Except.ok.injEq] at h
      subst h
      intro r hr
      rcases List.mem_cons.mp hr with hr | hr
      · subst hr
        exact parse_flight_record_ok_geocoded countries states x _ heqx
      · exact ih more heqxs r hr
    · simp only [Except.ok.injEq] at h
      subst h
      exact ih more heqxs

lemma parse_snapshot_ok_geocoded (countries states : List Polygon)
    (raw : JsonVal) (l : List FlightRecord)
    (h : parse_snapshot countries states raw = Except.ok l) :
    ∀ r ∈ l, GeocodedRecord countries states r := by
  cases raw with
  | list items => exact parseListItems_ok_geocoded countries states items l h
  | dict entries =>
    rw [show parse_snapshot countries states (JsonVal.dict entries) =
        parseDictEntries countries states entries from rfl,
      parseDictEntries_eq] at h
    exact parseListItems_ok_geocoded countries states _ l h
  | null =>
    simp only [parse_snapshot, Except.ok.injEq] at h
    subst h; simp
  | bool b =>
    simp only [parse_snapshot, Except.ok.injEq] at h
    subst h; simp
  | num q =>
    simp only [parse_snapshot, Except.ok.injEq] at h
    subst h; simp
  | str s =>
    simp only [parse_snapshot, Except.ok.injEq] at h
    subst h; simp

lemma isNull_eq_false_of_float (v : JsonVal) (q : ℚ) (h : jsonToFloat v = some q) :
    isNull v = false := by
  cases v <;> simp_all [jsonToFloat, isNull]

lemma parse_flight_record_valid (countries states : List Polygon) (x : JsonVal)
    (h : isValidTriple x = true) :
    parse_flight_record countries states x =
      Except.ok (some (tripleRecord countries states x)) := by
  cases x with
  | list items =>
    match items with
    | [] => simp [isValidTriple] at h
    | [a] => simp [isValidTriple] at h
    | [a, b] => simp [isValidTriple] at h
    | a :: b :: c :: rest =>
      simp only [isValidTriple, Bool.and_eq_true, Option.isSome_iff_exists] at h
      obtain ⟨⟨py, hpy⟩, ⟨px, hpx⟩⟩ := h
      have hna : isNull a = false := isNull_eq_false_of_float a py hpy
      have hnb : isNull b = false := isNull_eq_false_of_float b px hpx
      unfold parse_flight_record tripleRecord
      simp [pyIndex, mkPoint, hpx, hpy, hna, hnb]
  | null => simp [isValidTriple] at h
  | bool b => simp [isValidTriple] at h
  | num q => simp [isValidTriple] at h
  | str s => simp [isValidTriple] at h
  | dict d => simp [isValidTriple] at h

lemma parseListItems_valid (countries states : List Polygon) (items : List JsonVal)
    (h : ∀ x ∈ items, isValidTriple x = true) :
    parseListItems countries states items =
      Except.ok (items.map (tripleRecord countries states)) := by
  induction items with
  | nil => rfl
  | cons x xs ih =>
    have hx := parse_flight_record_valid countries states x (h x (by simp))
    have hxs := ih fun y hy => h y (List.mem_cons_of_mem x hy)
    unfold parseListItems
    rw [hx, hxs]
    simp

lemma collectLoop_ok (countries states : List Polygon) (outcome : Nat → Option JsonVal)
    (offsets : List Nat) (rs : Nat → List FlightRecord)
    (h : ∀ o ∈ offsets,
      parse_snapshot countries states (fetch_snapshot outcome o) = Except.ok (rs o)) :
    collectLoop countries states outcome offsets =
      (offsets, offsets.map (fun o => (o, (rs o).length)), Except.ok (offsets.flatMap rs)) := by
  induction offsets with
  | nil => rfl
  | cons o rest ih =>
    have ho := h o (by simp)
    have hrest := ih fun o' ho' => h o' (List.mem_cons_of_mem o ho')
    unfold collectLoop
    rw [ho, hrest]
    simp [List.flatMap_cons]

/-- Claim C1: the claim says extraction never raises on a malformed candidate
and that such candidates are skipped.  The code contradicts it: a candidate
with no positional slots — and even a spec-valid candidate with exactly two
slots — makes `obj[0]`/`obj[2]` raise `IndexError`, which propagates out of
`parse_snapshot` instead of skipping the candidate. -/
theorem C1_malformed_candidate_raises :
    parse_snapshot [] [] (.list [.list []]) = Except.error "IndexError" ∧
    parse_snapshot [] [] (.list [.list [.num 10, .num 20]]) =
      Except.error "IndexError" :=
  ⟨rfl, rfl⟩

/-- Claim C2: on the spec's own scenario `[[10.0, 20.0, 1500], [null, 5.0, 300]]`
the claim says parse returns the single valid triple.  The code instead raises:
`Point(lon, lat)` is constructed with a `None` latitude before the null check
(src/main.py:78 vs 86), so the whole parse raises `TypeError` and no record is
returned. -/
theorem C2_null_latitude_raises :
    parse_snapshot [] [] (.list [.list [.num 10, .num 20, .num 1500],
        .list [.null, .num 5, .num 300]]) = Except.error "TypeError" := rfl

/-- Claim C3: fetch failures are indeed contained (a timed-out offset 5
contributes zero records and every other offset's records survive), but
per-candidate errors are NOT contained: a single malformed candidate raises
out of `parse_snapshot` and aborts the whole `collect_flight_history` call,
losing all other offsets. -/
theorem C3_error_containment_status :
    collect_flight_history [] []
        (fun h => if h = 5 then none else some (.list [.list [.num 1, .num 2, .num 3]])) 7 =
      ([0, 1, 2, 3, 4, 5, 6],
        [(0, 1), (1, 1), (2, 1), (3, 1), (4, 1), (5, 0), (6, 1)],
        Except.ok (List.replicate 6 ⟨.num 1, .num 2, .num 3, none, none⟩)) ∧
    collect_flight_history [] []
        (fun h => if h = 0 then some (.list [.list []])
                  else some (.list [.list [.num 1, .num 2, .num 3]])) 2 =
      ([0], [], Except.error "IndexError") :=
  ⟨rfl, rfl⟩

/-- Claim C4 (counterexample): for `hours = -3` the code does not fail fast;
`range(-3)` is empty, so `collect_flight_history` silently returns an empty
window with no fetch attempts and no error. -/
theorem C4_negative_hours_counterexample :
    collect_flight_history [] [] (fun _ => none) (-3) = ([], [], Except.ok []) := rfl

/-- Claim C4 (amended): for every negative `hours`, `collect_flight_history`
silently returns the empty window — no fetch attempt, no diagnostic, result
`[]` — and escalates no error to the caller. -/
theorem C4_negative_hours_silent_empty (countries states : List Polygon)
    (outcome : Nat → Option JsonVal) (hours : Int) (h : hours < 0) :
    collect_flight_history countries states outcome hours = ([], [], Except.ok []) := by
  unfold collect_flight_history
  rw [Int.toNat_of_nonpos h.le]
  rfl

theorem C4_negative_hours_witness :
    collect_flight_history [] [] (fun _ => none) (-1) = ([], [], Except.ok []) :=
  C4_negative_hours_silent_empty [] [] (fun _ => none) (-1) (by decide)

/-- Claim C5: for any latitude/longitude (and altitude), extraction builds the
point as `Point(lon, lat)` — longitude in the x slot — and each tier
independently yields the name of the first polygon, in the collection's
iteration order, containing that point (`List.find?`), or `None` when no
polygon contains it. -/
theorem C5_point_axis_order_first_match (countries states : List Polygon)
    (lat lon alt : ℚ) :
    parse_flight_record countries states (.list [.num lat, .num lon, .num alt]) =
      Except.ok (some ⟨.num lat, .num lon, .num alt,
        ((countries.find? fun g => g.contains ⟨lon, lat⟩).map Polygon.name),
        ((states.find? fun g => g.contains ⟨lon, lat⟩).map Polygon.name)⟩) := by
  rw [show parse_flight_record countries states (.list [.num lat, .num lon, .num alt]) =
      Except.ok (some ⟨.num lat, .num lon, .num alt,
        firstContainingName countries ⟨lon, lat⟩,
        firstContainingName states ⟨lon, lat⟩⟩) from rfl,
    firstContainingName_eq_find?, firstContainingName_eq_find?]

/-- Claim C6: a payload that is a sequence of valid positional triples parses
to exactly one record per element, in input order (and the "zero output per
invalid element" part is vacuous under this premise). -/
theorem C6_valid_triples_in_order (countries states : List Polygon)
    (items : List JsonVal) (h : ∀ x ∈ items, isValidTriple x = true) :
    parse_snapshot countries states (.list items) =
      Except.ok (items.map (tripleRecord countries states)) :=
  parseListItems_valid countries states items h

theorem C6_valid_triples_witness :
    parse_snapshot [] [] (.list [.list [.num 10, .num 20, .num 1500],
        .list [.num 3, .num 4, .null]]) =
      Except.ok ([.list [.num 10, .num 20, .num 1500],
        .list [.num 3, .num 4, .null]].map (tripleRecord [] [])) :=
  C6_valid_triples_in_order [] [] _ (by decide)

/-- Claim C7: a keyed-mapping payload parses to exactly the concatenation of
the triples extracted from its sequence-valued entries, in entry order,
ignoring all non-sequence values; in particular the spec's concrete scenario
yields one record (1.0, 1.0, 100). -/
theorem C7_dict_sequence_entries_only :
    (∀ (countries states : List Polygon) (entries : List (String × JsonVal)),
      parse_snapshot countries states (.dict entries) =
        parseListItems countries states (entries.flatMap fun kv => listItems kv.2)) ∧
    parse_snapshot [] [] (.dict [("flights", .list [.list [.num 1, .num 1, .num 100]]),
        ("meta", .str "ignore")]) =
      Except.ok [⟨.num 1, .num 1, .num 100, none, none⟩] :=
  ⟨fun countries states entries => parseDictEntries_eq countries states entries, rfl⟩

/-- Claim C8: `collect(0)` does return an empty window with zero fetch
attempts, but "exactly N fetch attempts regardless of outcomes" fails: when a
fetched snapshot contains a malformed candidate, the parse exception aborts
the loop after only the failing offset's fetch (here 1 attempt instead of 2). -/
theorem C8_fetch_attempt_accounting :
    collect_flight_history [] [] (fun _ => some (.list [])) 0 = ([], [], Except.ok []) ∧
    collect_flight_history [] [] (fun _ => some (.list [.list []])) 2 =
      ([0], [], Except.error "IndexError") :=
  ⟨rfl, rfl⟩

/-- Claim C9: when every offset's snapshot parses successfully, the output of
`collect_flight_history` is exactly the concatenation of the per-offset parse
results in increasing offset order. -/
theorem C9_offset_order_concat (countries states : List Polygon)
    (outcome : Nat → Option JsonVal) (hours : Int) (rs : Nat → List FlightRecord)
    (h : ∀ o < hours.toNat,
      parse_snapshot countries states (fetch_snapshot outcome o) = Except.ok (rs o)) :
    (collect_flight_history countries states outcome hours).2.2 =
      Except.ok ((List.range hours.toNat).flatMap rs) := by
  unfold collect_flight_history
  rw [collectLoop_ok countries states outcome _ rs fun o ho => h o (List.mem_range.mp ho)]

theorem C9_offset_order_witness :
    (collect_flight_history [] [] (fun _ => some (.list [])) 2).2.2 =
      Except.ok ((List.range 2).flatMap fun _ => ([] : List FlightRecord)) :=
  C9_offset_order_concat [] [] (fun _ => some (.list [])) 2 (fun _ => [])
    fun _ _ => rfl

/-- Claim C10: every record returned by `parse_snapshot` is already a complete
five-field record geocoded at its own coordinates (geocoding happens inside
candidate extraction), and the per-offset progress diagnostic count is the
length of that fully-geocoded record list, i.e. a post-geocode count. -/
theorem C10_records_geocoded_in_parse :
    (∀ (countries states : List Polygon) (raw : JsonVal) (l : List FlightRecord),
      parse_snapshot countries states raw = Except.ok l →
        ∀ r ∈ l, GeocodedRecord countries states r) ∧
    (∀ (countries states : List Polygon) (outcome : Nat → Option JsonVal)
        (hours : Int) (rs : Nat → List FlightRecord),
      (∀ o < hours.toNat,
        parse_snapshot countries states (fetch_snapshot outcome o) = Except.ok (rs o)) →
      (collect_flight_history countries states outcome hours).2.1 =
        (List.range hours.toNat).map fun o => (o, (rs o).length)) := by
  constructor
  · exact fun countries states raw l h =>
      parse_snapshot_ok_geocoded countries states raw l h
  · intro countries states outcome hours rs h
    unfold collect_flight_history
    rw [collectLoop_ok countries states outcome _ rs fun o ho => h o (List.mem_range.mp ho)]

theorem C10_records_geocoded_witness :
    GeocodedRecord [] [] ⟨.num 10, .num 20, .num 1500, none, none⟩ ∧
    (collect_flight_history [] [] (fun _ => some (.list [])) 2).2.1 = [(0, 0), (1, 0)] := by
  constructor
  · exact C10_records_geocoded_in_parse.1 [] []
      (.list [.list [.num 10, .num 20, .num 1500]])
      [⟨.num 10, .num 20, .num 1500, none, none⟩] rfl _ (by simp)
  · have h := C10_records_geocoded_in_parse.2 [] [] (fun _ => some (.list [])) 2
      (fun _ => []) (fun o ho => rfl)
    simpa [List.range_succ] using h
